import Mathlib

/-!
Shallow embedding of the ClawTutor engine-auth subsystem.

Paths are modelled as lists of components (`path.join a b` is `a ++ [b]`);
environment variables holding directory overrides are modelled as optional
paths already expanded by `expandHomeDir`.  The filesystem is a pair of
functions giving, for each path, the (parsed) content of the file stored
there and whether a directory exists there.  File contents are modelled at
the level the code observes them: whether the text parses as a JSON object
and, if so, which keys it has.
-/

namespace ClawTutor

abbrev EnginePath := List String

/-- Content of a file, at the granularity the credential probe observes:
a JSON object with a set of keys, some other JSON value, or unparseable text.
The sentinel text written by the controller parses as the empty JSON object. -/
inductive FileContent where
  | jsonObj (keys : List String)
  | nonObject
  | invalid
deriving DecidableEq, Repr

/-- Filesystem state: file content by path, and directory existence by path. -/
structure FS where
  files : EnginePath → Option FileContent
  dirs : EnginePath → Bool

def FS.writeFile (fs : FS) (p : EnginePath) (c : FileContent) : FS :=
  { fs with files := fun q => if q = p then some c else fs.files q }

/-- Modelled from the spec: ensureAuthDirectory (core/auth.js, outside the
given sources) ensures the engine private state directory exists (§4.4 step 2). -/
def FS.ensureDir (fs : FS) (p : EnginePath) : FS :=
  { fs with dirs := fun q => if q = p then true else fs.dirs q }

/-- Recursive, forced removal: deletes the target and everything under it;
a missing target is not an error (`rm` with recursive and force). -/
def FS.removeRecursive (fs : FS) (t : EnginePath) : FS :=
  { files := fun q => if t.isPrefixOf q then none else fs.files q,
    dirs := fun q => if t.isPrefixOf q then false else fs.dirs q }

/-- `stat` succeeds when a file or directory exists at the path. -/
def FS.statSucceeds (fs : FS) (p : EnginePath) : Bool :=
  (fs.files p).isSome || fs.dirs p

/-- `existsSync` from node:fs. -/
def existsSync (fs : FS) (p : EnginePath) : Bool :=
  (fs.files p).isSome || fs.dirs p

/-- Environment-variable configuration read by the OpenCode engine module,
with directory-valued variables already expanded by `expandHomeDir`. -/
structure Env where
  opencodeHome : Option EnginePath
  xdgData : Option EnginePath
  xdgConfig : Option EnginePath
  xdgCache : Option EnginePath
  home : EnginePath

/-- `resolveOpenCodeHome`: the explicit argument wins over the
CLAWTUTOR_OPENCODE_HOME environment variable; undefined when neither is set. -/
def resolveOpenCodeHome (env : Env) (customPath : Option EnginePath) : Option EnginePath :=
  match customPath with
  | some p => some p
  | none => env.opencodeHome

/-- `resolveOpenCodeDataDir`: override home joined with "data" when configured,
else XDG_DATA_HOME (default `~/.local/share`) joined with "opencode". -/
def resolveOpenCodeDataDir (env : Env) : EnginePath :=
  match resolveOpenCodeHome env none with
  | some opencodeHome => opencodeHome ++ ["data"]
  | none =>
    let xdgData := match env.xdgData with
      | some x => x
      | none => env.home ++ [".local", "share"]
    xdgData ++ ["opencode"]

/-- `resolveOpenCodeConfigDir`. -/
def resolveOpenCodeConfigDir (env : Env) : EnginePath :=
  match resolveOpenCodeHome env none with
  | some opencodeHome => opencodeHome ++ ["config"]
  | none =>
    let xdgConfig := match env.xdgConfig with
      | some x => x
      | none => env.home ++ [".config"]
    xdgConfig ++ ["opencode"]

/-- `resolveOpenCodeCacheDir`. -/
def resolveOpenCodeCacheDir (env : Env) : EnginePath :=
  match resolveOpenCodeHome env none with
  | some opencodeHome => opencodeHome ++ ["cache"]
  | none =>
    let xdgCache := match env.xdgCache with
      | some x => x
      | none => env.home ++ [".cache"]
    xdgCache ++ ["opencode"]

/-- Metadata of the OpenCode engine descriptor. Modelled from the spec:
metadata.js is outside the given sources; the login spawn in the source
hardcodes the binary name "opencode". Only `cliBinary` and `id` matter here. -/
structure EngineMetadata where
  id : String
  name : String
  description : String
  cliBinary : String
  installCommand : String

def metadata : EngineMetadata :=
  { id := "opencode", name := "OpenCode", description := "OpenCode engine",
    cliBinary := "opencode", installCommand := "npm install -g opencode-ai" }

/-- `isCliInstalled`: Bun.which(command) resolves in PATH; the PATH lookup is
the oracle `which`. No subprocess is involved. -/
def isCliInstalled (which : String → Option String) (command : String) : Bool :=
  (which command).isSome

/-- `isAuthenticated`: true iff the binary is resolvable; deliberately not a
credential check. -/
def isAuthenticated (which : String → Option String) : Bool :=
  isCliInstalled which metadata.cliBinary

/-- `hasOpenCodeCredential`: read auth.json in the data dir, parse it, and
report whether the provider key is present; any read or parse failure, or a
non-object value, reports false. -/
def hasOpenCodeCredential (env : Env) (fs : FS) (providerId : String) : Bool :=
  let authPath := resolveOpenCodeDataDir env ++ ["auth.json"]
  match fs.files authPath with
  | some (.jsonObj keys) => keys.contains providerId
  | some _ => false
  | none => false

/-- Outcome of the attempt to launch the interactive `opencode auth login`
child process, used as an oracle at the spawn point of `ensureAuth`: either
the child ran to completion (with the filesystem as the child left it and an
exit code that is not inspected), or launching raised a command-not-found
error, or launching raised some other error. -/
inductive SpawnResult where
  | ran (fsAfter : FS) (exitCode : Nat)
  | launchErrorNotFound
  | launchErrorOther

/-- Failure kinds thrown out of `ensureAuth`: the distinguishable
"CLI is not installed" error, and a rethrown non-not-found launch error. -/
inductive AuthError where
  | engineNotInstalled
  | subprocessFailure
deriving DecidableEq, Repr

/-- Observable outcome of one `ensureAuth` call: the returned value or thrown
error, the resulting filesystem, and whether control reached the spawn of the
login subprocess. -/
structure EnsureAuthOut where
  result : Except AuthError Bool
  fs : FS
  spawnAttempted : Bool

/-- `ensureAuth(forceLogin)`:
1. if not forcing and a credential exists, return true at once;
2. ensure the data directory exists;
3. if the CLI binary is not installed, throw the not-installed error;
4. spawn `opencode auth login` attached to the terminal and wait (the exit
   code is not consulted); a command-not-found launch error becomes the same
   not-installed error, other launch errors are rethrown;
5. afterwards, if no auth.json exists, write the empty-object sentinel.
The XDG environment passed to the child only redirects the child's own
state directories and is otherwise unobservable here; the child's effect on
the filesystem is the `spawn` oracle's `fsAfter`. -/
def ensureAuth (env : Env) (which : String → Option String) (spawn : SpawnResult)
    (fs : FS) (forceLogin : Bool) : EnsureAuthOut :=
  let dataDir := resolveOpenCodeDataDir env
  if !forceLogin && hasOpenCodeCredential env fs "opencode" then
    { result := .ok true, fs := fs, spawnAttempted := false }
  else
    let fs1 := fs.ensureDir dataDir
    if !(isCliInstalled which metadata.cliBinary) then
      { result := .error .engineNotInstalled, fs := fs1, spawnAttempted := false }
    else
      match spawn with
      | .launchErrorNotFound =>
        { result := .error .engineNotInstalled, fs := fs1, spawnAttempted := true }
      | .launchErrorOther =>
        { result := .error .subprocessFailure, fs := fs1, spawnAttempted := true }
      | .ran fsChild _exitCode =>
        let authPath := resolveOpenCodeDataDir env ++ ["auth.json"]
        if fsChild.statSucceeds authPath then
          { result := .ok true, fs := fsChild, spawnAttempted := true }
        else
          { result := .ok true, fs := fsChild.writeFile authPath (.jsonObj []),
            spawnAttempted := true }

/-- The removal targets of `clearAuth`: the override root when configured,
else each of the config, cache and data directories. -/
def clearAuthTargets (env : Env) : List EnginePath :=
  match resolveOpenCodeHome env none with
  | some opencodeHome => [opencodeHome]
  | none => [resolveOpenCodeConfigDir env, resolveOpenCodeCacheDir env,
             resolveOpenCodeDataDir env]

/-- The removal loop of `clearAuth`, one recursive forced removal per target. -/
def rmAll (fs : FS) : List EnginePath → FS
  | [] => fs
  | t :: ts => rmAll (fs.removeRecursive t) ts

/-- `clearAuth`: best-effort recursive removal of every target; it always
completes and returns (removal of a missing directory is a no-op). -/
def clearAuth (env : Env) (fs : FS) : FS :=
  rmAll fs (clearAuthTargets env)

/-- The menu affordance returned by `nextAuthMenuAction`. -/
inductive MenuAction where
  | login
  | logout
deriving DecidableEq, Repr

/-- `nextAuthMenuAction`: login when the CLI binary is missing; otherwise
logout exactly when the credential probe finds the provider key. -/
def nextAuthMenuAction (env : Env) (which : String → Option String) (fs : FS) : MenuAction :=
  if !(isAuthenticated which) then .login
  else if hasOpenCodeCredential env fs "opencode" then .logout
  else .login

/-! Workspace root resolution (src/shared/agents/config/paths.ts). -/

def WORKSPACE_DIRNAME : String := ".clawtutor"

def LEGACY_WORKSPACE_DIRNAME : String := ".codemachine"

/-- `resolveWorkspaceRoot`: prefer `<cwd>/.clawtutor` when it exists, else
`<cwd>/.codemachine` when it exists, else default to `<cwd>/.clawtutor`.
Pure existence checks only; always returns a path. -/
def resolveWorkspaceRoot (fs : FS) (cwd : EnginePath) : EnginePath :=
  let clawtutorRoot := cwd ++ [WORKSPACE_DIRNAME]
  let legacyRoot := cwd ++ [LEGACY_WORKSPACE_DIRNAME]
  if existsSync fs clawtutorRoot then clawtutorRoot
  else if existsSync fs legacyRoot then legacyRoot
  else clawtutorRoot

/-! Home-directory guard at boot (CLI entry module). -/

/-- What the boot home-directory check does next: continue booting, or
terminate the process with the given exit code. -/
inductive BootOutcome where
  | proceed
  | exitWith (code : Nat)
deriving DecidableEq, Repr

/-- The boot home-directory guard: canonicalize the target working directory,
then the home directory (`realpathSync`, modelled by the oracle `canon`,
`none` meaning the call throws); if either canonicalization throws, continue
booting; if both succeed and the canonical paths are equal, print guidance
and exit the process with status 1. -/
def bootHomeCheck (canon : EnginePath → Option EnginePath)
    (targetCwd home : EnginePath) : BootOutcome :=
  match canon targetCwd with
  | none => .proceed
  | some resolvedTarget =>
    match canon home with
    | none => .proceed
    | some resolvedHome =>
      if resolvedTarget = resolvedHome then .exitWith 1 else .proceed

/-! Engine registry and background initialization. -/

/-- One registry entry: descriptor identity plus whether the engine exposes
the optional syncConfig capability. Modelled from the spec: the registry
module (src/infra/engines) is outside the given sources; §3 and §4.3 give the
descriptor shape and lookup contract. -/
structure EngineDescriptor where
  id : String
  name : String
  description : String
  hasSyncConfig : Bool

/-- Modelled from the spec: the engine registry holds the descriptors in
registration order (§4.3). -/
structure Registry where
  engines : List EngineDescriptor

/-- `getAll`: the descriptors in registration order. -/
def Registry.getAll (r : Registry) : List EngineDescriptor :=
  r.engines

/-- `get(id)`: the first descriptor with that id, or absent. -/
def Registry.get (r : Registry) (id : String) : Option EngineDescriptor :=
  r.engines.find? (fun e => e.id == id)

/-- Events produced by one run of the background initializer, in order. -/
inductive InitEvent where
  | bootstrapWorkspace
  | syncConfigInvoked (id : String)
deriving DecidableEq, Repr

/-- Modelled from the spec: ensureWorkspaceStructure (services/workspace,
outside the given sources) performs the first-run bootstrap of the workspace
directory structure at the resolved workspace root (§4.5 step 1). -/
def ensureWorkspaceStructure (fs : FS) (cwd : EnginePath) : FS :=
  fs.ensureDir (resolveWorkspaceRoot fs cwd)

/-- Result of one background-initializer run: the filesystem afterwards and
the ordered trace of what it did. -/
structure InitOut where
  fs : FS
  events : List InitEvent

/-- `initializeInBackground(cwd)`: resolve the workspace root; bootstrap the
workspace only when the root does not exist; then, over the registry in
registration order, invoke syncConfig for every descriptor exposing it, one
engine at a time. An engine's syncConfig refreshes that engine's own config
and is modelled as leaving the tracked filesystem unchanged. -/
def initializeInBackground (reg : Registry) (fs : FS) (cwd : EnginePath) : InitOut :=
  let cmRoot := resolveWorkspaceRoot fs cwd
  let step1 : InitOut :=
    if !(existsSync fs cmRoot) then
      { fs := ensureWorkspaceStructure fs cwd, events := [.bootstrapWorkspace] }
    else
      { fs := fs, events := [] }
  let syncEvents := (reg.getAll.filter (fun e => e.hasSyncConfig)).map
    (fun e => InitEvent.syncConfigInvoked e.id)
  { fs := step1.fs, events := step1.events ++ syncEvents }

/-! The `auth login` command layer (src/cli/commands/auth.command.ts). -/

/-- Observable outcome of the `auth login` command action: the cancel message
followed by a normal return, the thrown unknown-provider error, or entry into
the selected engine's auth flow (whose interior is beyond this claim set). -/
inductive AuthCmdResult where
  | printedNoProvider
  | unknownProvider (id : String)
  | loginFlow (id : String)
deriving DecidableEq, Repr

/-- `handleLogin(providerId)` up to its registry guard: an id absent from the
registry throws the unknown-provider error; a registered id proceeds into the
engine auth flow. -/
def handleLogin (reg : Registry) (providerId : String) : AuthCmdResult :=
  match reg.get providerId with
  | none => .unknownProvider providerId
  | some engine => .loginFlow engine.id

/-- The choices offered by `selectAuthProvider`: the ids of all registered
engines, in registration order. -/
def selectAuthProviderChoices (reg : Registry) : List String :=
  reg.getAll.map (fun e => e.id)

/-- The `auth login` command action: a cancelled selection prints
"No provider selected." and returns normally; a selected id goes to
`handleLogin`. -/
def authLoginCommand (reg : Registry) (selection : Option String) : AuthCmdResult :=
  match selection with
  | none => .printedNoProvider
  | some providerId => handleLogin reg providerId

/-! Concrete fixtures used to instantiate the theorems below. -/

/-- An environment with the CLAWTUTOR_OPENCODE_HOME override configured. -/
def envOverride : Env :=
  { opencodeHome := some ["h"], xdgData := none, xdgConfig := none,
    xdgCache := none, home := ["home"] }

/-- An environment without the override, with all XDG variables set. -/
def envXdg : Env :=
  { opencodeHome := none, xdgData := some ["xd"], xdgConfig := some ["xc"],
    xdgCache := some ["xh"], home := ["home"] }

/-- The empty filesystem. -/
def fsEmpty : FS := { files := fun _ => none, dirs := fun _ => false }

/-- A filesystem holding an auth.json with the "opencode" provider key under
the override data directory of `envOverride`. -/
def fsWithCred : FS :=
  { files := fun p =>
      if p = ["h", "data", "auth.json"] then some (.jsonObj ["opencode"]) else none,
    dirs := fun _ => false }

/-- A filesystem where only the legacy workspace directory of cwd `["w"]` exists. -/
def fsLegacyOnly : FS :=
  { files := fun _ => none,
    dirs := fun p => if p = ["w", ".codemachine"] then true else false }

/-- A PATH in which every command resolves. -/
def whichAll : String → Option String := fun _ => some "resolved"

/-- A PATH in which no command resolves. -/
def whichNone : String → Option String := fun _ => none

/-- A canonicalization that succeeds and is the identity. -/
def canonId : EnginePath → Option EnginePath := fun p => some p

/-- A canonicalization that always throws. -/
def canonFail : EnginePath → Option EnginePath := fun _ => none

/-- A two-engine registry, only the first exposing syncConfig. -/
def reg2 : Registry :=
  { engines :=
      [{ id := "opencode", name := "OpenCode", description := "oc", hasSyncConfig := true },
       { id := "claude", name := "Claude", description := "cl", hasSyncConfig := false }] }

/-! Helper lemmas about removal and bootstrap. -/

theorem rmAll_files_none (p : EnginePath) (ts : List EnginePath) (fs : FS)
    (h : fs.files p = none) : (rmAll fs ts).files p = none := by
  induction ts generalizing fs with
  | nil => simpa [rmAll] using h
  | cons t ts ih =>
    apply ih
    simp [FS.removeRecursive, h]

theorem rmAll_files_none_of_mem (p t : EnginePath) (ts : List EnginePath) (fs : FS)
    (ht : t ∈ ts) (hp : t <+: p) : (rmAll fs ts).files p = none := by
  induction ts generalizing fs with
  | nil => cases ht
  | cons u us ih =>
    rcases List.mem_cons.mp ht with rfl | hmem
    · exact rmAll_files_none p us _ (by simp [FS.removeRecursive, hp])
    · exact ih _ hmem

theorem rmAll_dirs_false (p : EnginePath) (ts : List EnginePath) (fs : FS)
    (h : fs.dirs p = false) : (rmAll fs ts).dirs p = false := by
  induction ts generalizing fs with
  | nil => simpa [rmAll] using h
  | cons t ts ih =>
    apply ih
    simp [FS.removeRecursive, h]

theorem rmAll_dirs_false_of_mem (p t : EnginePath) (ts : List EnginePath) (fs : FS)
    (ht : t ∈ ts) (hp : t <+: p) : (rmAll fs ts).dirs p = false := by
  induction ts generalizing fs with
  | nil => cases ht
  | cons u us ih =>
    rcases List.mem_cons.mp ht with rfl | hmem
    · exact rmAll_dirs_false p us _ (by simp [FS.removeRecursive, hp])
    · exact ih _ hmem

theorem ensureWorkspaceStructure_exists (fs : FS) (cwd : EnginePath)
    (h : existsSync fs (resolveWorkspaceRoot fs cwd) = false) :
    existsSync (ensureWorkspaceStructure fs cwd)
      (resolveWorkspaceRoot (ensureWorkspaceStructure fs cwd) cwd) = true := by
  cases hcur : existsSync fs (cwd ++ [WORKSPACE_DIRNAME]) with
  | true =>
    rw [show resolveWorkspaceRoot fs cwd = cwd ++ [WORKSPACE_DIRNAME] from
      by simp [resolveWorkspaceRoot, hcur]] at h
    exact absurd h (by simp [hcur])
  | false =>
    cases hleg : existsSync fs (cwd ++ [LEGACY_WORKSPACE_DIRNAME]) with
    | true =>
      rw [show resolveWorkspaceRoot fs cwd = cwd ++ [LEGACY_WORKSPACE_DIRNAME] from
        by simp [resolveWorkspaceRoot, hcur, hleg]] at h
      exact absurd h (by simp [hleg])
    | false =>
      have hroot : resolveWorkspaceRoot fs cwd = cwd ++ [WORKSPACE_DIRNAME] := by
        simp [resolveWorkspaceRoot, hcur, hleg]
      have h1 : existsSync (ensureWorkspaceStructure fs cwd) (cwd ++ [WORKSPACE_DIRNAME]) = true := by
        simp [ensureWorkspaceStructure, hroot, existsSync, FS.ensureDir]
      have hroot1 : resolveWorkspaceRoot (ensureWorkspaceStructure fs cwd) cwd =
          cwd ++ [WORKSPACE_DIRNAME] := by
        simp [resolveWorkspaceRoot, h1]
      rw [hroot1]
      exact h1

/-! Claim theorems. -/

/-- C1 (amended): ensureAuth with forceLogin=false and a credential present
returns success immediately, unchanged filesystem, no spawn; a spawn is
attempted only if forceLogin is set or no credential exists beforehand; and
with forceLogin=true, provided the binary-present check passes, the subprocess
step is attempted even when a credential already exists. -/
theorem ensureAuth_spawn_policy (env : Env) (which : String → Option String)
    (spawn : SpawnResult) (fs : FS) (forceLogin : Bool) :
    (forceLogin = false → hasOpenCodeCredential env fs "opencode" = true →
      ensureAuth env which spawn fs forceLogin =
        { result := .ok true, fs := fs, spawnAttempted := false }) ∧
    ((ensureAuth env which spawn fs forceLogin).spawnAttempted = true →
      forceLogin = true ∨ hasOpenCodeCredential env fs "opencode" = false) ∧
    (forceLogin = true → isCliInstalled which metadata.cliBinary = true →
      (ensureAuth env which spawn fs forceLogin).spawnAttempted = true) := by
  refine ⟨?_, ?_, ?_⟩
  · intro hf hc
    simp [ensureAuth, hf, hc]
  · intro hs
    cases hf : forceLogin with
    | true => exact Or.inl rfl
    | false =>
      cases hc : hasOpenCodeCredential env fs "opencode" with
      | false => exact Or.inr rfl
      | true => simp [ensureAuth, hf, hc] at hs
  · intro hf hi
    cases spawn with
    | launchErrorNotFound => simp [ensureAuth, hf, hi]
    | launchErrorOther => simp [ensureAuth, hf, hi]
    | ran fsChild code =>
      cases hst : FS.statSucceeds fsChild (resolveOpenCodeDataDir env ++ ["auth.json"]) with
      | true => simp [ensureAuth, hf, hi, hst]
      | false => simp [ensureAuth, hf, hi, hst]

/-- C1 counterexample: a call with forceLogin=true and a credential present,
but with the binary missing, does not attempt the subprocess step (it throws
the not-installed error first), refuting the unconditional "spawns iff
forceLogin or no credential" / "always attempts the subprocess step". -/
theorem ensureAuth_forceLogin_missing_binary_cex :
    hasOpenCodeCredential envOverride fsWithCred "opencode" = true ∧
    (ensureAuth envOverride whichNone (SpawnResult.ran fsEmpty 0) fsWithCred true).spawnAttempted
      = false ∧
    (ensureAuth envOverride whichNone (SpawnResult.ran fsEmpty 0) fsWithCred true).result =
      Except.error AuthError.engineNotInstalled :=
  ⟨by decide, by decide, by rfl⟩

/-- C1 witness: with a credential present, a non-forcing call returns success
with no spawn and the filesystem untouched; a forcing call with the binary
installed attempts the spawn. -/
theorem ensureAuth_spawn_policy_witness :
    ensureAuth envOverride whichAll (SpawnResult.ran fsEmpty 0) fsWithCred false =
      { result := .ok true, fs := fsWithCred, spawnAttempted := false } ∧
    (ensureAuth envOverride whichAll (SpawnResult.ran fsEmpty 0) fsWithCred true).spawnAttempted
      = true :=
  ⟨(ensureAuth_spawn_policy envOverride whichAll (SpawnResult.ran fsEmpty 0) fsWithCred
      false).1 rfl (by decide),
   (ensureAuth_spawn_policy envOverride whichAll (SpawnResult.ran fsEmpty 0) fsWithCred
      true).2.2 rfl (by decide)⟩

/-- C2: nextAuthMenuAction returns login whenever the binary is absent,
returns logout iff the binary is present and the credential probe reports a
credential, and returns login in the remaining state. -/
theorem nextAuthMenuAction_spec (env : Env) (which : String → Option String) (fs : FS) :
    (isAuthenticated which = false → nextAuthMenuAction env which fs = .login) ∧
    (nextAuthMenuAction env which fs = .logout ↔
      isAuthenticated which = true ∧ hasOpenCodeCredential env fs "opencode" = true) ∧
    (isAuthenticated which = true → hasOpenCodeCredential env fs "opencode" = false →
      nextAuthMenuAction env which fs = .login) := by
  cases ha : isAuthenticated which <;>
    cases hc : hasOpenCodeCredential env fs "opencode" <;>
      simp [nextAuthMenuAction, ha, hc]

/-- C2 witness: no binary gives login; binary plus credential gives logout. -/
theorem nextAuthMenuAction_witness :
    nextAuthMenuAction envOverride whichNone fsEmpty = .login ∧
    nextAuthMenuAction envOverride whichAll fsWithCred = .logout :=
  ⟨(nextAuthMenuAction_spec envOverride whichNone fsEmpty).1 (by decide),
   (nextAuthMenuAction_spec envOverride whichAll fsWithCred).2.1.mpr ⟨by decide, by decide⟩⟩

/-- C3: when a successful ensureAuth run reaches the subprocess step and the
external tool leaves no auth.json behind, ensureAuth succeeds and the final
filesystem holds the credential file parsing as the empty JSON object. -/
theorem ensureAuth_sentinel (env : Env) (which : String → Option String)
    (fs fsChild : FS) (exitCode : Nat) (forceLogin : Bool)
    (h1 : forceLogin = true ∨ hasOpenCodeCredential env fs "opencode" = false)
    (h2 : isCliInstalled which metadata.cliBinary = true)
    (h3 : fsChild.statSucceeds (resolveOpenCodeDataDir env ++ ["auth.json"]) = false) :
    (ensureAuth env which (.ran fsChild exitCode) fs forceLogin).result = .ok true ∧
    (ensureAuth env which (.ran fsChild exitCode) fs forceLogin).fs.files
      (resolveOpenCodeDataDir env ++ ["auth.json"]) = some (.jsonObj []) := by
  have hcond : (!forceLogin && hasOpenCodeCredential env fs "opencode") = false := by
    rcases h1 with h | h <;> simp [h]
  simp [ensureAuth, hcond, h2, h3, FS.writeFile]

/-- C3 witness: a forcing login over the empty filesystem whose child created
nothing ends with the sentinel auth.json in place. -/
theorem ensureAuth_sentinel_witness :
    (ensureAuth envOverride whichAll (SpawnResult.ran fsEmpty 0) fsEmpty true).result =
      .ok true ∧
    (ensureAuth envOverride whichAll (SpawnResult.ran fsEmpty 0) fsEmpty true).fs.files
      (resolveOpenCodeDataDir envOverride ++ ["auth.json"]) = some (.jsonObj []) :=
  ensureAuth_sentinel envOverride whichAll fsEmpty fsEmpty 0 true (Or.inl rfl)
    (by decide) (by decide)

/-- C4: with no credential short-circuit, a missing binary makes ensureAuth
fail with the distinguishable not-installed kind without attempting a spawn,
and a command-not-found launch failure (the binary vanished between the check
and the spawn) fails with the same kind. -/
theorem ensureAuth_engineNotInstalled (env : Env) (which : String → Option String)
    (spawn : SpawnResult) (fs : FS) (forceLogin : Bool)
    (h1 : forceLogin = true ∨ hasOpenCodeCredential env fs "opencode" = false) :
    (isCliInstalled which metadata.cliBinary = false →
      (ensureAuth env which spawn fs forceLogin).result = .error .engineNotInstalled ∧
      (ensureAuth env which spawn fs forceLogin).spawnAttempted = false) ∧
    (isCliInstalled which metadata.cliBinary = true → spawn = .launchErrorNotFound →
      (ensureAuth env which spawn fs forceLogin).result = .error .engineNotInstalled) ∧
    AuthError.engineNotInstalled ≠ AuthError.subprocessFailure := by
  have hcond : (!forceLogin && hasOpenCodeCredential env fs "opencode") = false := by
    rcases h1 with h | h <;> simp [h]
  refine ⟨?_, ?_, by decide⟩
  · intro hi
    simp [ensureAuth, hcond, hi]
  · intro hi hs
    subst hs
    simp [ensureAuth, hcond, hi]

/-- C4 witness: the empty filesystem with no binary yields the not-installed
error and no spawn; a vanishing binary at launch yields the same kind. -/
theorem ensureAuth_engineNotInstalled_witness :
    (ensureAuth envOverride whichNone (SpawnResult.ran fsEmpty 0) fsEmpty false).result =
      .error .engineNotInstalled ∧
    (ensureAuth envOverride whichNone (SpawnResult.ran fsEmpty 0) fsEmpty false).spawnAttempted
      = false ∧
    (ensureAuth envOverride whichAll SpawnResult.launchErrorNotFound fsEmpty false).result =
      .error .engineNotInstalled :=
  ⟨((ensureAuth_engineNotInstalled envOverride whichNone (SpawnResult.ran fsEmpty 0) fsEmpty
      false (Or.inr (by decide))).1 (by decide)).1,
   ((ensureAuth_engineNotInstalled envOverride whichNone (SpawnResult.ran fsEmpty 0) fsEmpty
      false (Or.inr (by decide))).1 (by decide)).2,
   (ensureAuth_engineNotInstalled envOverride whichAll SpawnResult.launchErrorNotFound fsEmpty
      false (Or.inr (by decide))).2.1 (by decide) rfl⟩

/-- C5: clearAuth always completes, removing every file and directory under
the override root when configured and otherwise under each of the config,
cache and data directories, and for every starting filesystem a credential
probe right after clearAuth reports no credential (for any provider id). -/
theorem clearAuth_probe_clear (env : Env) (fs : FS) :
    (∀ providerId, hasOpenCodeCredential env (clearAuth env fs) providerId = false) ∧
    (∀ t p, t ∈ clearAuthTargets env → t <+: p →
      (clearAuth env fs).files p = none ∧ (clearAuth env fs).dirs p = false) := by
  constructor
  · intro providerId
    have hnone : (clearAuth env fs).files (resolveOpenCodeDataDir env ++ ["auth.json"]) = none := by
      cases h : env.opencodeHome with
      | none =>
        apply rmAll_files_none_of_mem _ (resolveOpenCodeDataDir env)
        · simp [clearAuthTargets, resolveOpenCodeHome, h]
        · exact List.prefix_append _ _
      | some oh =>
        apply rmAll_files_none_of_mem _ oh
        · simp [clearAuthTargets, resolveOpenCodeHome, h]
        · have hdata : resolveOpenCodeDataDir env ++ ["auth.json"] =
              oh ++ (["data"] ++ ["auth.json"]) := by
            simp [resolveOpenCodeDataDir, resolveOpenCodeHome, h]
          rw [hdata]
          exact List.prefix_append _ _
    simp [hasOpenCodeCredential, hnone]
  · intro t p ht hp
    exact ⟨rmAll_files_none_of_mem p t _ fs ht hp, rmAll_dirs_false_of_mem p t _ fs ht hp⟩

/-- C5 witness: clearing over a filesystem that held a credential leaves the
probe reporting none, and the auth.json under the data target is gone. -/
theorem clearAuth_probe_clear_witness :
    hasOpenCodeCredential envOverride (clearAuth envOverride fsWithCred) "opencode" = false ∧
    (clearAuth envOverride fsWithCred).files ["h", "data", "auth.json"] = none :=
  ⟨(clearAuth_probe_clear envOverride fsWithCred).1 "opencode",
   ((clearAuth_probe_clear envOverride fsWithCred).2 ["h"] ["h", "data", "auth.json"]
      (by decide) (by decide)).1⟩

/-- C6: resolveWorkspaceRoot returns the current-convention directory when it
exists under cwd, else the legacy-convention directory when that exists, else
the current-convention path unconditionally; it is a pure total function of
the existence checks. -/
theorem resolveWorkspaceRoot_spec (fs : FS) (cwd : EnginePath) :
    (existsSync fs (cwd ++ [WORKSPACE_DIRNAME]) = true →
      resolveWorkspaceRoot fs cwd = cwd ++ [WORKSPACE_DIRNAME]) ∧
    (existsSync fs (cwd ++ [WORKSPACE_DIRNAME]) = false →
      existsSync fs (cwd ++ [LEGACY_WORKSPACE_DIRNAME]) = true →
      resolveWorkspaceRoot fs cwd = cwd ++ [LEGACY_WORKSPACE_DIRNAME]) ∧
    (existsSync fs (cwd ++ [WORKSPACE_DIRNAME]) = false →
      existsSync fs (cwd ++ [LEGACY_WORKSPACE_DIRNAME]) = false →
      resolveWorkspaceRoot fs cwd = cwd ++ [WORKSPACE_DIRNAME]) := by
  refine ⟨?_, ?_, ?_⟩
  · intro h
    simp [resolveWorkspaceRoot, h]
  · intro h1 h2
    simp [resolveWorkspaceRoot, h1, h2]
  · intro h1 h2
    simp [resolveWorkspaceRoot, h1, h2]

/-- C6 witness: with only the legacy directory present the legacy path is
returned; with neither present the current-convention path is returned. -/
theorem resolveWorkspaceRoot_witness :
    resolveWorkspaceRoot fsLegacyOnly ["w"] = ["w", ".codemachine"] ∧
    resolveWorkspaceRoot fsEmpty ["w"] = ["w", ".clawtutor"] :=
  ⟨(resolveWorkspaceRoot_spec fsLegacyOnly ["w"]).2.1 (by decide) (by decide),
   (resolveWorkspaceRoot_spec fsEmpty ["w"]).2.2 (by decide) (by decide)⟩

/-- C7: the boot home-directory guard trips, exiting the process with the
non-zero status 1, exactly when canonicalization of both the target and the
home directory succeeds with equal results; when either canonicalization
throws, it passes and boot continues. -/
theorem bootHomeCheck_spec (canon : EnginePath → Option EnginePath)
    (target home : EnginePath) :
    ((∃ p, canon target = some p ∧ canon home = some p) ↔
      bootHomeCheck canon target home = .exitWith 1) ∧
    (∀ c, bootHomeCheck canon target home = .exitWith c → c ≠ 0) ∧
    ((canon target = none ∨ canon home = none) →
      bootHomeCheck canon target home = .proceed) := by
  cases ht : canon target with
  | none => simp [bootHomeCheck, ht]
  | some t =>
    cases hh : canon home with
    | none => simp [bootHomeCheck, ht, hh]
    | some h =>
      by_cases he : t = h
      · subst he
        simp [bootHomeCheck, ht, hh]
      · simp [bootHomeCheck, ht, hh, he]
        exact fun hc => he hc.symm

/-- C7 witness: canonicalization succeeding on equal paths trips the guard
with exit status 1; a failing canonicalization lets boot proceed. -/
theorem bootHomeCheck_witness :
    bootHomeCheck canonId ["w"] ["w"] = .exitWith 1 ∧
    bootHomeCheck canonFail ["w"] ["home"] = .proceed :=
  ⟨(bootHomeCheck_spec canonId ["w"] ["w"]).1.mp ⟨["w"], rfl, rfl⟩,
   (bootHomeCheck_spec canonFail ["w"] ["home"]).2.2 (Or.inl rfl)⟩

/-- C8: the background initializer bootstraps the workspace iff the resolved
root does not exist; its trace is the optional bootstrap followed by one
syncConfig invocation per registered engine exposing it, in registration
order; and a second invocation after the first never bootstraps again. -/
theorem initializeInBackground_guarded (reg : Registry) (fs : FS) (cwd : EnginePath) :
    (InitEvent.bootstrapWorkspace ∈ (initializeInBackground reg fs cwd).events ↔
      existsSync fs (resolveWorkspaceRoot fs cwd) = false) ∧
    ((initializeInBackground reg fs cwd).events =
      (if existsSync fs (resolveWorkspaceRoot fs cwd) then ([] : List InitEvent)
        else [InitEvent.bootstrapWorkspace]) ++
      (reg.getAll.filter (fun e => e.hasSyncConfig)).map
        (fun e => InitEvent.syncConfigInvoked e.id)) ∧
    (InitEvent.bootstrapWorkspace ∉
      (initializeInBackground reg (initializeInBackground reg fs cwd).fs cwd).events) := by
  cases he : existsSync fs (resolveWorkspaceRoot fs cwd) with
  | true =>
    refine ⟨?_, ?_, ?_⟩
    · simp [initializeInBackground, he, List.mem_map]
    · simp [initializeInBackground, he]
    · have hfs : (initializeInBackground reg fs cwd).fs = fs := by
        simp [initializeInBackground, he]
      rw [hfs]
      simp [initializeInBackground, he, List.mem_map]
  | false =>
    refine ⟨?_, ?_, ?_⟩
    · simp [initializeInBackground, he]
    · simp [initializeInBackground, he]
    · have hfs : (initializeInBackground reg fs cwd).fs = ensureWorkspaceStructure fs cwd := by
        simp [initializeInBackground, he]
      rw [hfs]
      have h2 := ensureWorkspaceStructure_exists fs cwd he
      simp [initializeInBackground, h2, List.mem_map]

/-- C8 witness: on the empty filesystem the first run bootstraps and then
syncs exactly the engines exposing syncConfig, in registration order. -/
theorem initializeInBackground_witness :
    InitEvent.bootstrapWorkspace ∈ (initializeInBackground reg2 fsEmpty ["w"]).events ∧
    (initializeInBackground reg2 fsEmpty ["w"]).events =
      [InitEvent.bootstrapWorkspace, InitEvent.syncConfigInvoked "opencode"] := by
  refine ⟨(initializeInBackground_guarded reg2 fsEmpty ["w"]).1.mpr (by decide), ?_⟩
  rw [(initializeInBackground_guarded reg2 fsEmpty ["w"]).2.1]
  decide

/-- C9: registry lookup of an unregistered id returns absence; the auth login
command treats a cancelled selection by printing a message and returning
normally; an unregistered id reaching handleLogin becomes the distinguishable
unknown-provider outcome rather than a crash; and every id offered by the
selection menu is found by the lookup. -/
theorem registry_unknownProvider (reg : Registry) :
    (∀ id, id ∉ reg.engines.map (fun e => e.id) → reg.get id = none) ∧
    (authLoginCommand reg none = .printedNoProvider) ∧
    (∀ id, id ∉ reg.engines.map (fun e => e.id) →
      authLoginCommand reg (some id) = .unknownProvider id) ∧
    (∀ id, id ∈ selectAuthProviderChoices reg → (reg.get id).isSome = true) := by
  have hget : ∀ id, id ∉ reg.engines.map (fun e => e.id) → reg.get id = none := by
    intro id hid
    apply List.find?_eq_none.mpr
    intro e he hbe
    exact hid (List.mem_map.mpr ⟨e, he, by simpa using hbe⟩)
  refine ⟨hget, rfl, ?_, ?_⟩
  · intro id hid
    simp [authLoginCommand, handleLogin, hget id hid]
  · intro id hid
    rcases List.mem_map.mp hid with ⟨e, he, rfl⟩
    apply List.find?_isSome.mpr
    exact ⟨e, he, by simp⟩

/-- C9 witness: an unregistered id is absent and yields the unknown-provider
outcome; cancellation prints the message and returns; a registered id is
found. -/
theorem registry_unknownProvider_witness :
    reg2.get "nope" = none ∧
    authLoginCommand reg2 (some "nope") = .unknownProvider "nope" ∧
    authLoginCommand reg2 none = .printedNoProvider ∧
    (reg2.get "opencode").isSome = true :=
  ⟨(registry_unknownProvider reg2).1 "nope" (by decide),
   (registry_unknownProvider reg2).2.2.1 "nope" (by decide),
   (registry_unknownProvider reg2).2.1,
   (registry_unknownProvider reg2).2.2.2 "opencode" (by decide)⟩

/-- C10: when ensureAuth fails because the binary is not installed and no
credential pre-exists, the engine data directory has nevertheless been
created before the error is raised. -/
theorem ensureAuth_dir_created_on_error (env : Env) (which : String → Option String)
    (spawn : SpawnResult) (fs : FS) (forceLogin : Bool)
    (h1 : hasOpenCodeCredential env fs "opencode" = false)
    (h2 : isCliInstalled which metadata.cliBinary = false) :
    (ensureAuth env which spawn fs forceLogin).result = .error .engineNotInstalled ∧
    (ensureAuth env which spawn fs forceLogin).fs.dirs (resolveOpenCodeDataDir env) = true := by
  simp [ensureAuth, h1, h2, FS.ensureDir]

/-- C10 witness: starting from the empty filesystem with no binary, the failed
call leaves the data directory created. -/
theorem ensureAuth_dir_created_on_error_witness :
    (ensureAuth envOverride whichNone (SpawnResult.ran fsEmpty 0) fsEmpty false).result =
      .error .engineNotInstalled ∧
    (ensureAuth envOverride whichNone (SpawnResult.ran fsEmpty 0) fsEmpty false).fs.dirs
      (resolveOpenCodeDataDir envOverride) = true :=
  ensureAuth_dir_created_on_error envOverride whichNone (SpawnResult.ran fsEmpty 0) fsEmpty
    false (by decide) (by decide)

end ClawTutor
